import Mathlib

/-!
Shallow embedding of `calendar_manager.py` (Google Calendar Meeting Manager).

The program is a one-shot CLI: parse arguments, authenticate against the
Google Calendar API (token file, refresh, or interactive consent flow),
run exactly one of list/create/update/delete, print, exit.

The embedding models:
- Python `datetime.fromisoformat` / `datetime.isoformat` (CPython grammar as
  of Python 3.10: `YYYY-MM-DD[*HH[:MM[:SS[.fff[fff]]]][+HH:MM[:SS[.ffffff]]]]`,
  digits only);
- the credential lifecycle of `CalendarManager.authenticate` over an explicit
  environment (token file contents, presence of `credentials.json`, the
  credentials an interactive flow or refresh would yield), with an explicit
  trace of authentication events;
- the four calendar operations over an explicit remote state and a trace of
  network calls;
- the `argparse` command-line surface of `main` and its dispatch.

File I/O, pickling, and the HTTP transport are represented by explicit state
and event traces; exceptions are represented with `Except`/result fields.
-/

namespace CalendarManager

/-! ### Python datetime model -/

/-- Result of a successful `datetime.fromisoformat`: the naive components plus
an optional fixed UTC offset (in microseconds). -/
structure PyDatetime where
  year : Nat
  month : Nat
  day : Nat
  hour : Nat
  minute : Nat
  second : Nat
  microsecond : Nat
  tzOffset : Option Int
  deriving Repr, DecidableEq

def digitVal (c : Char) : Option Nat :=
  if c.isDigit then some (c.toNat - 48) else none

/-- Value of a run of decimal digits; fails if any character is not a digit. -/
def digitsVal (cs : List Char) : Option Nat :=
  cs.foldl
    (fun acc c =>
      match acc, digitVal c with
      | some n, some d => some (n * 10 + d)
      | _, _ => none)
    (some 0)

/-- Two decimal digits, returning the value and the remaining characters. -/
def parse2d : List Char → Option (Nat × List Char)
  | c1 :: c2 :: rest =>
    match digitVal c1, digitVal c2 with
    | some a, some b => some (a * 10 + b, rest)
    | _, _ => none
  | _ => none

/-- Fractional-second part after the dot: exactly 3 or 6 digits, scaled to
microseconds (CPython `_parse_hh_mm_ss_ff`). -/
def parseFrac (cs : List Char) : Option Nat :=
  if cs.length = 3 then (digitsVal cs).map (· * 1000)
  else if cs.length = 6 then digitsVal cs
  else none

/-- CPython `_parse_hh_mm_ss_ff`: `HH[:MM[:SS[.fff[fff]]]]`; a fraction is
accepted only after the seconds component. Returns (h, m, s, microseconds). -/
def parseHMSF (cs : List Char) : Option (Nat × Nat × Nat × Nat) := do
  let (h, r1) ← parse2d cs
  match r1 with
  | [] => some (h, 0, 0, 0)
  | ':' :: r2 => do
    let (m, r3) ← parse2d r2
    match r3 with
    | [] => some (h, m, 0, 0)
    | ':' :: r4 => do
      let (s, r5) ← parse2d r4
      match r5 with
      | [] => some (h, m, s, 0)
      | '.' :: r6 => (parseFrac r6).map (fun f => (h, m, s, f))
      | _ => none
    | _ => none
  | _ => none

/-- Split the time string at the first `-`, else the first `+`, into the clock
part and (sign, offset chars) — CPython `_parse_isoformat_time`'s tz split. -/
def splitTz (cs : List Char) : List Char × Option (Bool × List Char) :=
  match cs.findIdx? (· = '-') with
  | some i => (cs.take i, some (true, cs.drop (i + 1)))
  | none =>
    match cs.findIdx? (· = '+') with
    | some i => (cs.take i, some (false, cs.drop (i + 1)))
    | none => (cs, none)

/-- CPython `_parse_isoformat_time`: clock part, then an optional UTC offset
whose string (sign excluded) must have length 5, 8 or 15 and whose magnitude
must stay below 24 hours. -/
def parseIsoTime (cs : List Char) : Option (Nat × Nat × Nat × Nat × Option Int) :=
  let (timecs, tzpart) := splitTz cs
  match parseHMSF timecs with
  | none => none
  | some (hh, mi, ss, us) =>
    match tzpart with
    | none => some (hh, mi, ss, us, none)
    | some (neg, tzcs) =>
      if tzcs.length = 5 ∨ tzcs.length = 8 ∨ tzcs.length = 15 then
        match parseHMSF tzcs with
        | none => none
        | some (th, tm, ts, tus) =>
          let total : Int := (((th * 3600 + tm * 60 + ts) * 1000000 + tus : Nat) : Int)
          if total = 0 then some (hh, mi, ss, us, some 0)
          else if total < 24 * 3600 * 1000000 then
            some (hh, mi, ss, us, some (if neg then -total else total))
          else none
      else none

def isLeapYear (y : Nat) : Bool :=
  (y % 4 == 0 && y % 100 != 0) || y % 400 == 0

def daysInMonth (y m : Nat) : Nat :=
  if m = 2 then (if isLeapYear y then 29 else 28)
  else if m = 4 ∨ m = 6 ∨ m = 9 ∨ m = 11 then 30
  else 31

/-- CPython `_parse_isoformat_date`: exactly `YYYY-MM-DD` (digits only). -/
def parseIsoDate : List Char → Option (Nat × Nat × Nat)
  | [y1, y2, y3, y4, s1, m1, m2, s2, d1, d2] =>
    if s1 = '-' ∧ s2 = '-' then
      match digitsVal [y1, y2, y3, y4], digitsVal [m1, m2], digitsVal [d1, d2] with
      | some y, some m, some d => some (y, m, d)
      | _, _, _ => none
    else none
  | _ => none

/-- Model of `datetime.fromisoformat` (Python ≤ 3.10 grammar): the first ten
characters must be a valid `YYYY-MM-DD`; a character at index 10 (any
character) separates the optional time part, which starts at index 11.
Component ranges are those enforced by the `datetime` constructor. -/
def fromisoformat (s : String) : Option PyDatetime :=
  let cs := s.toList
  match parseIsoDate (cs.take 10) with
  | none => none
  | some (y, m, d) =>
    if 1 ≤ y ∧ y ≤ 9999 ∧ 1 ≤ m ∧ m ≤ 12 ∧ 1 ≤ d ∧ d ≤ daysInMonth y m then
      match cs.drop 10 with
      | [] => some ⟨y, m, d, 0, 0, 0, 0, none⟩
      | _sep :: tcs =>
        if tcs = [] then some ⟨y, m, d, 0, 0, 0, 0, none⟩
        else
          match parseIsoTime tcs with
          | none => none
          | some (hh, mi, ss, us, tz) =>
            if hh ≤ 23 ∧ mi ≤ 59 ∧ ss ≤ 59 then some ⟨y, m, d, hh, mi, ss, us, tz⟩
            else none
    else none

/-- Zero-padded decimal of the given width. -/
def pad (width n : Nat) : String :=
  let s := toString n
  String.mk (List.replicate (width - s.length) '0') ++ s

/-- Model of `datetime.isoformat()`: `YYYY-MM-DDTHH:MM:SS`, a `.ffffff`
fraction only when the microsecond is nonzero, and the UTC offset (when
aware) as `±HH:MM[:SS[.ffffff]]`. -/
def PyDatetime.isoformat (dt : PyDatetime) : String :=
  let base := pad 4 dt.year ++ "-" ++ pad 2 dt.month ++ "-" ++ pad 2 dt.day ++ "T" ++
      pad 2 dt.hour ++ ":" ++ pad 2 dt.minute ++ ":" ++ pad 2 dt.second
  let base := if dt.microsecond ≠ 0 then base ++ "." ++ pad 6 dt.microsecond else base
  match dt.tzOffset with
  | none => base
  | some off =>
    let sign := if off < 0 then "-" else "+"
    let a := off.natAbs
    let us := a % 1000000
    let totalSec := a / 1000000
    let hh := totalSec / 3600
    let mm := (totalSec % 3600) / 60
    let ss := totalSec % 60
    let tzs := sign ++ pad 2 hh ++ ":" ++ pad 2 mm
    let tzs := if ss ≠ 0 ∨ us ≠ 0 then tzs ++ ":" ++ pad 2 ss else tzs
    let tzs := if us ≠ 0 then tzs ++ "." ++ pad 6 us else tzs
    base ++ tzs

/-- Python truthiness of an `Optional[str]`: `None` and `""` are falsy. -/
def pyTruthy : Option String → Bool
  | some s => s ≠ ""
  | none => false

/-! ### Events and the remote calendar state -/

/-- The `start`/`end` sub-dictionary of a Google Calendar event: an event has
either a `dateTime` or an all-day `date`, and possibly a `timeZone`. -/
structure EventTime where
  dateTime : Option String
  date : Option String
  timeZone : Option String
  deriving Repr, DecidableEq

/-- An event record as held by the remote service. `extra` stands for every
further key of the event dictionary that the program never touches (status,
creator, reminders, ...); the merge-patch claims are about it being carried
through `update_event` unchanged. `id := ""` encodes a body without an `id`
key (an insert body). `attendees := none` encodes an absent `attendees` key. -/
structure Event where
  id : String
  summary : Option String
  description : Option String
  start : EventTime
  end_ : EventTime
  attendees : Option (List String)
  extra : List (String × String)
  deriving Repr, DecidableEq

/-- One network round-trip issued by a calendar operation. -/
inductive NetCall where
  | listCall (maxResults daysAhead : Int)
  | insertCall (body : Event)
  | getCall (eventId : String)
  | updateCall (eventId : String) (body : Event)
  | deleteCall (eventId : String)
  deriving Repr, DecidableEq

/-- State of the remote calendar. `remoteFails` models a remote that answers
every request with an `HttpError`. `nextId` feeds fresh ids for inserts. -/
structure RemoteState where
  events : List Event
  nextId : Nat
  remoteFails : Bool
  deriving Repr, DecidableEq

/-- A line printed by the program, by kind. -/
inductive Msg where
  | authSuccess
  | configMissing
  | authFailed
  | httpErrorMsg
  | valueErrorMsg
  | noEvents (days : Int)
  | listHeader (days : Int)
  | eventLine (line : String)
  | createdOk (id : String)
  | updatedOk (id : String)
  | deletedOk (id : String)
  | helpText
  | usageError
  deriving Repr, DecidableEq

/-- A Python exception that no handler in the program catches. -/
inductive PyExn where
  | unpicklingError
  | typeError
  | valueError
  deriving Repr, DecidableEq

def RemoteState.lookup (st : RemoteState) (eventId : String) : Option Event :=
  st.events.find? (fun e => e.id == eventId)

def RemoteState.replace (st : RemoteState) (eventId : String) (e' : Event) : RemoteState :=
  { st with events := st.events.map (fun e => if e.id == eventId then e' else e) }

def RemoteState.remove (st : RemoteState) (eventId : String) : RemoteState :=
  { st with events := st.events.filter (fun e => ¬ e.id == eventId) }

/-! ### `list_events` -/

/-- `start.replace('Z', '+00:00')` from `list_events`. -/
def replaceZ (s : String) : String :=
  String.mk ((s.toList.map (fun c => if c = 'Z' then "+00:00".toList else [c])).flatten)

/-- `start_dt.strftime('%Y-%m-%d %H:%M')` from `list_events`. -/
def strftimeYMDHM (dt : PyDatetime) : String :=
  pad 4 dt.year ++ "-" ++ pad 2 dt.month ++ "-" ++ pad 2 dt.day ++ " " ++
    pad 2 dt.hour ++ ":" ++ pad 2 dt.minute

/-- The per-event display line of `list_events`. A `start` dictionary with
neither `dateTime` nor `date` makes `'T' in None` raise `TypeError`; a
`dateTime` containing `T` that `fromisoformat` rejects raises `ValueError`;
neither is caught by the `except HttpError` handler. -/
def formatEventLine (e : Event) : Except PyExn String :=
  match e.start.dateTime.or e.start.date with
  | none => .error .typeError
  | some start =>
    let summary := e.summary.getD "No title"
    let shortId := String.mk (e.id.toList.take 8)
    if start.toList.contains 'T' then
      match fromisoformat (replaceZ start) with
      | none => .error .valueError
      | some dt =>
        .ok ("• " ++ strftimeYMDHM dt ++ " - " ++ summary ++ " (ID: " ++ shortId ++ "...)")
    else .ok ("• " ++ start ++ " - " ++ summary ++ " (ID: " ++ shortId ++ "...)")

def formatEvents : List Event → List Msg → List Msg × Option PyExn
  | [], acc => (acc, none)
  | e :: rest, acc =>
    match formatEventLine e with
    | .error ex => (acc, some ex)
    | .ok line => formatEvents rest (acc ++ [.eventLine line])

structure ListRes where
  ret : List Event
  calls : List NetCall
  msgs : List Msg
  exn : Option PyExn
  deriving Repr, DecidableEq

/-- `CalendarManager.list_events`. The query-window strings built from
`datetime.utcnow()` are abstracted into the raw `maxResults`/`daysAhead`
parameters of the recorded call; the remote is modelled as answering with its
full stored event list. -/
def list_events (st : RemoteState) (max_results days_ahead : Int) : ListRes :=
  let call := NetCall.listCall max_results days_ahead
  if st.remoteFails then ⟨[], [call], [.httpErrorMsg], none⟩
  else if st.events = [] then ⟨[], [call], [.noEvents days_ahead], none⟩
  else
    match formatEvents st.events [.listHeader days_ahead] with
    | (msgs, none) => ⟨st.events, [call], msgs, none⟩
    | (msgs, some ex) => ⟨[], [call], msgs, some ex⟩

/-! ### `create_event` -/

structure CreateRes where
  ret : Option String
  state : RemoteState
  calls : List NetCall
  msgs : List Msg
  deriving Repr, DecidableEq

/-- `CalendarManager.create_event`: parse both date-times first (a failure is
the `except ValueError` path, before any network call), build the insert body,
then issue the single insert. -/
def create_event (st : RemoteState) (title start_time end_time description : String)
    (attendees : List String) : CreateRes :=
  match fromisoformat start_time with
  | none => ⟨none, st, [], [.valueErrorMsg]⟩
  | some start_dt =>
    match fromisoformat end_time with
    | none => ⟨none, st, [], [.valueErrorMsg]⟩
    | some end_dt =>
      let body : Event :=
        { id := ""
          summary := some title
          description := some description
          start := { dateTime := some start_dt.isoformat, date := none, timeZone := some "UTC" }
          end_ := { dateTime := some end_dt.isoformat, date := none, timeZone := some "UTC" }
          attendees := if attendees ≠ [] then some attendees else none
          extra := [] }
      if st.remoteFails then ⟨none, st, [.insertCall body], [.httpErrorMsg]⟩
      else
        let newId := toString st.nextId
        let stored := { body with id := newId }
        ⟨some newId,
          { st with events := st.events ++ [stored], nextId := st.nextId + 1 },
          [.insertCall body], [.createdOk newId]⟩

/-! ### `update_event` and `delete_event` -/

/-- `if title: event['summary'] = title` — truthiness test. -/
def applyTitle (event : Event) (title : Option String) : Event :=
  if pyTruthy title then { event with summary := title } else event

/-- `if description is not None: event['description'] = description`. -/
def applyDescription (event : Event) (description : Option String) : Event :=
  match description with
  | some d => { event with description := some d }
  | none => event

/-- `if start_time:` — parse then overwrite only `event['start']['dateTime']`;
a failing parse raises `ValueError`. -/
def applyStart (event : Event) (start_time : Option String) : Except PyExn Event :=
  if pyTruthy start_time then
    match fromisoformat (start_time.getD "") with
    | none => .error .valueError
    | some start_dt =>
      .ok { event with start := { event.start with dateTime := some start_dt.isoformat } }
  else .ok event

/-- `if end_time:` — parse then overwrite only `event['end']['dateTime']`. -/
def applyEnd (event : Event) (end_time : Option String) : Except PyExn Event :=
  if pyTruthy end_time then
    match fromisoformat (end_time.getD "") with
    | none => .error .valueError
    | some end_dt =>
      .ok { event with end_ := { event.end_ with dateTime := some end_dt.isoformat } }
  else .ok event

/-- The in-place mutation block of `update_event`, in source order: title,
description, start, end. Mutations happen on the local copy only. -/
def mergeEvent (event : Event) (title start_time end_time description : Option String) :
    Except PyExn Event :=
  match applyStart (applyDescription (applyTitle event title) description) start_time with
  | .error ex => .error ex
  | .ok e3 => applyEnd e3 end_time

structure UpdateRes where
  ret : Bool
  state : RemoteState
  calls : List NetCall
  msgs : List Msg
  deriving Repr, DecidableEq

/-- `CalendarManager.update_event`: fetch the current event (a missing id or a
failing remote is the caught `HttpError` path), merge the supplied fields into
the fetched record, and write the full merged record back with one update
call. A `ValueError` from a supplied date-time is caught and returns `False`
with nothing written. -/
def update_event (st : RemoteState) (event_id : String)
    (title start_time end_time description : Option String) : UpdateRes :=
  if st.remoteFails then ⟨false, st, [.getCall event_id], [.httpErrorMsg]⟩
  else
    match st.lookup event_id with
    | none => ⟨false, st, [.getCall event_id], [.httpErrorMsg]⟩
    | some event =>
      match mergeEvent event title start_time end_time description with
      | .error _ => ⟨false, st, [.getCall event_id], [.valueErrorMsg]⟩
      | .ok merged =>
        ⟨true, st.replace event_id merged,
          [.getCall event_id, .updateCall event_id merged], [.updatedOk event_id]⟩

structure DeleteRes where
  ret : Bool
  state : RemoteState
  calls : List NetCall
  msgs : List Msg
  deriving Repr, DecidableEq

/-- `CalendarManager.delete_event`: one delete call; any `HttpError` (failing
remote or unknown id) is caught and returns `False`. -/
def delete_event (st : RemoteState) (event_id : String) : DeleteRes :=
  if st.remoteFails then ⟨false, st, [.deleteCall event_id], [.httpErrorMsg]⟩
  else
    match st.lookup event_id with
    | none => ⟨false, st, [.deleteCall event_id], [.httpErrorMsg]⟩
    | some _ => ⟨true, st.remove event_id, [.deleteCall event_id], [.deletedOk event_id]⟩

/-! ### `authenticate` -/

/-- The fields of a `google.oauth2.credentials.Credentials` object that
`authenticate` inspects. -/
structure Creds where
  token : Option String
  expired : Bool
  refresh_token : Option String
  deriving Repr, DecidableEq

/-- `Credentials.valid`: a token is present and not expired. -/
def Creds.valid (c : Creds) : Bool := c.token.isSome && !c.expired

/-- `creds.refresh(Request())` on success: a fresh access token, no longer
expired, same refresh token. -/
def Creds.refreshed (c : Creds) (newToken : String) : Creds :=
  { c with token := some newToken, expired := false }

/-- Contents of `token.pickle` as seen by `pickle.load`: either a credentials
object or bytes that fail to unpickle. -/
inductive TokenFile where
  | parsed (c : Creds)
  | corrupt
  deriving Repr, DecidableEq

/-- The environment `authenticate` runs in: the token file (absent, parseable,
or corrupt), whether `credentials.json` exists, the credentials an interactive
consent flow would produce, and the access token a refresh would produce. -/
structure AuthEnv where
  tokenFile : Option TokenFile
  credentialsFile : Bool
  flowCreds : Creds
  refreshedToken : String
  deriving Repr, DecidableEq

/-- Externally visible steps of `authenticate`: the refresh round-trip, the
interactive consent flow (browser + local listener), writing `token.pickle`,
and constructing the service handle. -/
inductive AuthEvent where
  | refreshCall
  | consentFlow
  | saveToken (c : Creds)
  | buildService
  deriving Repr, DecidableEq

/-- How `authenticate` ends: a service built over credentials, an early return
with `self.service` still `None` (missing `credentials.json`), or an uncaught
exception. -/
inductive AuthOutcome where
  | ok (c : Creds)
  | noService
  | raised (e : PyExn)
  deriving Repr, DecidableEq

/-- The consent-flow branch of `authenticate`: missing `credentials.json`
prints and returns with no service; otherwise run the interactive flow, dump
the credentials, build the service. -/
def consentPath (env : AuthEnv) : AuthOutcome × List AuthEvent × List Msg :=
  if env.credentialsFile then
    (.ok env.flowCreds, [.consentFlow, .saveToken env.flowCreds, .buildService], [.authSuccess])
  else (.noService, [], [.configMissing])

/-- `authenticate` after the token file has been read (or found absent):
the `if not creds or not creds.valid` / `if creds and creds.expired and
creds.refresh_token` cascade, with `pickle.dump` only inside the outer
branch. -/
def authWithCreds (env : AuthEnv) : Option Creds → AuthOutcome × List AuthEvent × List Msg
  | some c =>
    if c.valid then (.ok c, [.buildService], [.authSuccess])
    else if c.expired && pyTruthy c.refresh_token then
      let c' := c.refreshed env.refreshedToken
      (.ok c', [.refreshCall, .saveToken c', .buildService], [.authSuccess])
    else consentPath env
  | none => consentPath env

/-- `CalendarManager.authenticate`: read `token.pickle` if it exists (an
unpicklable file raises out of the method — there is no handler), then the
valid / refresh / consent cascade. -/
def authenticate (env : AuthEnv) : AuthOutcome × List AuthEvent × List Msg :=
  match env.tokenFile with
  | some .corrupt => (.raised .unpicklingError, [], [])
  | some (.parsed c) => authWithCreds env (some c)
  | none => authWithCreds env none

/-! ### Argument parsing (`argparse` surface of `main`) -/

/-- The typed command `main` dispatches on. -/
inductive Command where
  | list (max : Int) (days : Int)
  | create (title start_time end_time description : String) (attendees : Option (List String))
  | update (event_id : String) (title start_time end_time description : Option String)
  | delete (event_id : String)
  deriving Repr, DecidableEq

/-- `parse_args` either yields a command (or `none` when no subcommand was
given) or terminates the process via `sys.exit`: code 0 after `--help`, code 2
after a usage error. -/
inductive ParseOutcome where
  | ok (cmd : Option Command)
  | exited (code : Nat) (msgs : List Msg)
  deriving Repr, DecidableEq

/-- Python `int(s)`: optional sign then decimal digits (whitespace and
underscore tolerance of `int` is not modelled). -/
def toIntPy (s : String) : Option Int :=
  match s.toList with
  | [] => none
  | '-' :: rest => if rest = [] then none else (digitsVal rest).map (fun n => -(n : Int))
  | '+' :: rest => if rest = [] then none else (digitsVal rest).map (fun n => (n : Int))
  | cs => (digitsVal cs).map (fun n => (n : Int))

/-- A token `argparse` treats as an option: `-` followed by anything. -/
def isFlagToken (s : String) : Bool :=
  match s.toList with
  | '-' :: _ :: _ => true
  | _ => false

/-- Greedy value collection for `nargs='*'`: everything up to the next
option-like token. -/
def takeUntilFlag : List String → List String × List String
  | [] => ([], [])
  | t :: rest =>
    if isFlagToken t then ([], t :: rest)
    else
      let (a, b) := takeUntilFlag rest
      (t :: a, b)

/-- The `list` subparser: `--max N` and `--days D`, no positionals. -/
def parseListCmd : List String → Int → Int → Except Unit (Int × Int)
  | [], mx, dy => .ok (mx, dy)
  | "--max" :: v :: rest, _, dy =>
    match toIntPy v with
    | some n => parseListCmd rest n dy
    | none => .error ()
  | "--days" :: v :: rest, mx, _ =>
    match toIntPy v with
    | some n => parseListCmd rest mx n
    | none => .error ()
  | _, _, _ => .error ()

/-- The `create` subparser: three positionals, `--description S`, and the
greedy `--attendees`. Accumulates positionals in order. -/
def parseCreateCmd (args : List String) (pos : List String) (desc : String)
    (att : Option (List String)) :
    Except Unit (List String × String × Option (List String)) :=
  match args with
  | [] => .ok (pos, desc, att)
  | "--description" :: v :: rest => parseCreateCmd rest pos v att
  | "--attendees" :: rest =>
    parseCreateCmd (takeUntilFlag rest).2 pos desc (some (takeUntilFlag rest).1)
  | t :: rest =>
    if isFlagToken t then .error ()
    else parseCreateCmd rest (pos ++ [t]) desc att
termination_by args.length
decreasing_by
  · simp only [List.length_cons]
    omega
  · have h : ∀ ts : List String, (takeUntilFlag ts).2.length ≤ ts.length := by
      intro ts
      induction ts with
      | nil => simp [takeUntilFlag]
      | cons t rest ih =>
        by_cases hf : isFlagToken t = true
        · simp [takeUntilFlag, hf]
        · simp only [takeUntilFlag, hf, Bool.false_eq_true, if_false, List.length_cons]
          omega
    simp only [List.length_cons]
    have := h rest
    omega
  · simp only [List.length_cons]
    omega

/-- The `update` subparser: one positional and four single-value options. -/
def parseUpdateCmd (args : List String) (pos : List String)
    (title start_time end_time description : Option String) :
    Except Unit (List String × Option String × Option String × Option String × Option String)
  :=
  match args with
  | [] => .ok (pos, title, start_time, end_time, description)
  | "--title" :: v :: rest => parseUpdateCmd rest pos (some v) start_time end_time description
  | "--start" :: v :: rest => parseUpdateCmd rest pos title (some v) end_time description
  | "--end" :: v :: rest => parseUpdateCmd rest pos title start_time (some v) description
  | "--description" :: v :: rest => parseUpdateCmd rest pos title start_time end_time (some v)
  | t :: rest =>
    if isFlagToken t then .error ()
    else parseUpdateCmd rest (pos ++ [t]) title start_time end_time description

/-- The `delete` subparser: exactly one positional, no options. -/
def parseDeleteCmd : List String → List String → Except Unit (List String)
  | [], pos => .ok pos
  | t :: rest, pos =>
    if isFlagToken t then .error ()
    else parseDeleteCmd rest (pos ++ [t])

/-- The top-level parser of `main`: no arguments yield `command = None`;
`-h`/`--help` prints help and exits 0; a known subcommand hands the rest to
its subparser (a subparser failure is `parser.error`: usage message, exit 2);
anything else is `invalid choice`: usage message, exit 2. -/
def parse_args (args : List String) : ParseOutcome :=
  match args with
  | [] => .ok none
  | tok :: rest =>
    if tok = "-h" ∨ tok = "--help" then .exited 0 [.helpText]
    else if tok = "list" then
      match parseListCmd rest 10 7 with
      | .ok (mx, dy) => .ok (some (.list mx dy))
      | .error _ => .exited 2 [.usageError]
    else if tok = "create" then
      match parseCreateCmd rest [] "" none with
      | .ok ([t, s, e], d, a) => .ok (some (.create t s e d a))
      | _ => .exited 2 [.usageError]
    else if tok = "update" then
      match parseUpdateCmd rest [] none none none none with
      | .ok ([eid], t, s, e, d) => .ok (some (.update eid t s e d))
      | _ => .exited 2 [.usageError]
    else if tok = "delete" then
      match parseDeleteCmd rest [] with
      | .ok [eid] => .ok (some (.delete eid))
      | _ => .exited 2 [.usageError]
    else .exited 2 [.usageError]

/-! ### `main` -/

/-- How the process ends: `main` returned, `sys.exit(code)` from `argparse`,
or an uncaught exception (traceback, nonzero status). -/
inductive ProcResult where
  | finished
  | exited (code : Nat)
  | crashed (e : PyExn)
  deriving Repr, DecidableEq

/-- Everything outside the process that one invocation can observe or touch. -/
structure Env where
  auth : AuthEnv
  remote : RemoteState
  deriving Repr, DecidableEq

structure MainRes where
  result : ProcResult
  authEvents : List AuthEvent
  calls : List NetCall
  msgs : List Msg
  state : RemoteState
  deriving Repr, DecidableEq

/-- `main`: parse, bail out on no command, construct `CalendarManager` (which
authenticates), bail out if `self.service` is `None`, then dispatch the one
command. An exception raised inside `authenticate` or `list_events` escapes
`main` and crashes the process. -/
def mainRun (args : List String) (env : Env) : MainRes :=
  match parse_args args with
  | .exited c msgs => ⟨.exited c, [], [], msgs, env.remote⟩
  | .ok none => ⟨.finished, [], [], [.helpText], env.remote⟩
  | .ok (some cmd) =>
    match authenticate env.auth with
    | (.raised ex, evs, amsgs) => ⟨.crashed ex, evs, [], amsgs, env.remote⟩
    | (.noService, evs, amsgs) => ⟨.finished, evs, [], amsgs ++ [.authFailed], env.remote⟩
    | (.ok _, evs, amsgs) =>
      match cmd with
      | .list mx dy =>
        let r := list_events env.remote mx dy
        match r.exn with
        | some ex => ⟨.crashed ex, evs, r.calls, amsgs ++ r.msgs, env.remote⟩
        | none => ⟨.finished, evs, r.calls, amsgs ++ r.msgs, env.remote⟩
      | .create t s e d a =>
        let r := create_event env.remote t s e d (a.getD [])
        ⟨.finished, evs, r.calls, amsgs ++ r.msgs, r.state⟩
      | .update eid t s e d =>
        let r := update_event env.remote eid t s e d
        ⟨.finished, evs, r.calls, amsgs ++ r.msgs, r.state⟩
      | .delete eid =>
        let r := delete_event env.remote eid
        ⟨.finished, evs, r.calls, amsgs ++ r.msgs, r.state⟩

/-! ### Well-formedness of remote events for display -/

/-- An event the display loop of `list_events` can format without raising:
its `start` has a `dateTime` or a `date`, and a value containing `T` parses
(after the `Z` replacement). -/
def Event.displayable (e : Event) : Bool :=
  match e.start.dateTime.or e.start.date with
  | none => false
  | some s =>
    if s.toList.contains 'T' then (fromisoformat (replaceZ s)).isSome else true

/-! ### Concrete fixtures -/

def ev0 : Event where
  id := "abc"
  summary := some "Old"
  description := some "odesc"
  start := { dateTime := some "2024-01-01T09:00:00", date := none, timeZone := some "UTC" }
  end_ := { dateTime := some "2024-01-01T10:00:00", date := none, timeZone := some "UTC" }
  attendees := none
  extra := [("status", "confirmed")]

def st0 : RemoteState where
  events := [ev0]
  nextId := 5
  remoteFails := false

def credsValid : Creds where
  token := some "tok"
  expired := false
  refresh_token := some "r"

def credsExpired : Creds where
  token := some "tok"
  expired := true
  refresh_token := some "r"

def credsFlow : Creds where
  token := some "flowtok"
  expired := false
  refresh_token := some "flowref"

def authEnvValid : AuthEnv where
  tokenFile := some (.parsed credsValid)
  credentialsFile := true
  flowCreds := credsFlow
  refreshedToken := "fresh"

def authEnvExpired : AuthEnv := { authEnvValid with tokenFile := some (.parsed credsExpired) }

def authEnvCorrupt : AuthEnv := { authEnvValid with tokenFile := some .corrupt }

def authEnvAbsent : AuthEnv := { authEnvValid with tokenFile := none }

def envCorrupt : Env where
  auth := authEnvCorrupt
  remote := st0

def envValid : Env where
  auth := authEnvValid
  remote := st0

/-! ## Supporting lemmas -/

theorem find?_id_eq {l : List Event} {eid : String} {e : Event}
    (h : l.find? (fun x => x.id == eid) = some e) : e.id = eid := by
  have := List.find?_some h
  simpa using this

theorem lookup_id_eq {st : RemoteState} {eid : String} {e : Event}
    (h : st.lookup eid = some e) : e.id = eid :=
  find?_id_eq h

theorem find?_map_replace (l : List Event) (eid : String) (e' : Event)
    (hid : e'.id = eid) (hfound : (l.find? (fun x => x.id == eid)).isSome = true) :
    (l.map (fun x => if x.id == eid then e' else x)).find? (fun x => x.id == eid) = some e' := by
  induction l with
  | nil => simp at hfound
  | cons a l ih =>
    by_cases ha : (a.id == eid) = true
    · simp only [List.map_cons]
      rw [if_pos ha]
      exact List.find?_cons_of_pos (p := fun (x : Event) => x.id == eid) _ (by simp [hid])
    · rw [List.find?_cons_of_neg (p := fun (x : Event) => x.id == eid) _ ha] at hfound
      simp only [List.map_cons]
      rw [if_neg ha, List.find?_cons_of_neg (p := fun (x : Event) => x.id == eid) _ ha]
      exact ih hfound

theorem find?_map_replace_ne (l : List Event) (eid eid' : String) (e' : Event)
    (hid : e'.id = eid) (hne : eid' ≠ eid) :
    (l.map (fun x => if x.id == eid then e' else x)).find? (fun x => x.id == eid') =
      l.find? (fun x => x.id == eid') := by
  induction l with
  | nil => simp
  | cons a l ih =>
    by_cases ha : (a.id == eid) = true
    · have ha' : a.id = eid := by simpa using ha
      have hpe : ¬ (e'.id == eid') = true := by
        simp only [hid, beq_iff_eq]
        exact Ne.symm hne
      have hpa : ¬ (a.id == eid') = true := by
        simp only [ha', beq_iff_eq]
        exact Ne.symm hne
      simp only [List.map_cons]
      rw [if_pos ha, List.find?_cons_of_neg (p := fun (x : Event) => x.id == eid') _ hpe,
        List.find?_cons_of_neg (p := fun (x : Event) => x.id == eid') _ hpa]
      exact ih
    · simp only [List.map_cons]
      rw [if_neg ha]
      by_cases hpa : (a.id == eid') = true
      · rw [List.find?_cons_of_pos (p := fun (x : Event) => x.id == eid') _ hpa,
          List.find?_cons_of_pos (p := fun (x : Event) => x.id == eid') _ hpa]
      · rw [List.find?_cons_of_neg (p := fun (x : Event) => x.id == eid') _ hpa,
          List.find?_cons_of_neg (p := fun (x : Event) => x.id == eid') _ hpa]
        exact ih

theorem lookup_replace_self (st : RemoteState) (eid : String) (e' : Event)
    (hid : e'.id = eid) (hfound : (st.lookup eid).isSome = true) :
    (st.replace eid e').lookup eid = some e' :=
  find?_map_replace st.events eid e' hid hfound

theorem lookup_replace_ne (st : RemoteState) (eid eid' : String) (e' : Event)
    (hid : e'.id = eid) (hne : eid' ≠ eid) :
    (st.replace eid e').lookup eid' = st.lookup eid' :=
  find?_map_replace_ne st.events eid eid' e' hid hne

theorem applyTitle_props (event : Event) (title : Option String) :
    (applyTitle event title).id = event.id ∧
    (applyTitle event title).description = event.description ∧
    (applyTitle event title).start = event.start ∧
    (applyTitle event title).end_ = event.end_ ∧
    (applyTitle event title).attendees = event.attendees ∧
    (applyTitle event title).extra = event.extra ∧
    (applyTitle event title).summary = (if pyTruthy title = true then title else event.summary)
    := by
  by_cases h : pyTruthy title = true
  · simp [applyTitle, h]
  · simp [applyTitle, h]

theorem applyDescription_props (event : Event) (description : Option String) :
    (applyDescription event description).id = event.id ∧
    (applyDescription event description).summary = event.summary ∧
    (applyDescription event description).start = event.start ∧
    (applyDescription event description).end_ = event.end_ ∧
    (applyDescription event description).attendees = event.attendees ∧
    (applyDescription event description).extra = event.extra ∧
    (applyDescription event description).description =
      (match description with | some d => some d | none => event.description) := by
  cases description with
  | none => simp [applyDescription]
  | some d => simp [applyDescription]

theorem applyStart_ok (event : Event) (s : Option String)
    (hs : pyTruthy s = true → (fromisoformat (s.getD "")).isSome = true) :
    ∃ e', applyStart event s = .ok e' ∧
      e'.id = event.id ∧ e'.summary = event.summary ∧
      e'.description = event.description ∧ e'.end_ = event.end_ ∧
      e'.attendees = event.attendees ∧ e'.extra = event.extra ∧
      e'.start.date = event.start.date ∧ e'.start.timeZone = event.start.timeZone ∧
      (pyTruthy s = false → e' = event) ∧
      (pyTruthy s = true →
        ∃ dt, fromisoformat (s.getD "") = some dt ∧ e'.start.dateTime = some dt.isoformat) := by
  by_cases h : pyTruthy s = true
  · obtain ⟨dt, hdt⟩ := Option.isSome_iff_exists.mp (hs h)
    refine ⟨{ event with start := { event.start with dateTime := some dt.isoformat } },
      by simp [applyStart, h, hdt], rfl, rfl, rfl, rfl, rfl, rfl, rfl, rfl, ?_, ?_⟩
    · intro hfalse
      rw [h] at hfalse
      exact Bool.noConfusion hfalse
    · intro _
      exact ⟨dt, hdt, rfl⟩
  · refine ⟨event, by simp [applyStart, h], rfl, rfl, rfl, rfl, rfl, rfl, rfl, rfl,
      fun _ => rfl, ?_⟩
    intro htrue
    exact absurd htrue h

theorem applyEnd_ok (event : Event) (s : Option String)
    (hs : pyTruthy s = true → (fromisoformat (s.getD "")).isSome = true) :
    ∃ e', applyEnd event s = .ok e' ∧
      e'.id = event.id ∧ e'.summary = event.summary ∧
      e'.description = event.description ∧ e'.start = event.start ∧
      e'.attendees = event.attendees ∧ e'.extra = event.extra ∧
      e'.end_.date = event.end_.date ∧ e'.end_.timeZone = event.end_.timeZone ∧
      (pyTruthy s = false → e' = event) ∧
      (pyTruthy s = true →
        ∃ dt, fromisoformat (s.getD "") = some dt ∧ e'.end_.dateTime = some dt.isoformat) := by
  by_cases h : pyTruthy s = true
  · obtain ⟨dt, hdt⟩ := Option.isSome_iff_exists.mp (hs h)
    refine ⟨{ event with end_ := { event.end_ with dateTime := some dt.isoformat } },
      by simp [applyEnd, h, hdt], rfl, rfl, rfl, rfl, rfl, rfl, rfl, rfl, ?_, ?_⟩
    · intro hfalse
      rw [h] at hfalse
      exact Bool.noConfusion hfalse
    · intro _
      exact ⟨dt, hdt, rfl⟩
  · refine ⟨event, by simp [applyEnd, h], rfl, rfl, rfl, rfl, rfl, rfl, rfl, rfl,
      fun _ => rfl, ?_⟩
    intro htrue
    exact absurd htrue h

/-! ## Claims -/

/-- C2: a create invocation whose start or end string does not parse as an
ISO-8601 date-time fails with a ValidationError (the caught `ValueError`
path), performs zero network calls, and leaves the remote state unchanged:
the parse happens before the insert request is issued. -/
theorem create_invalid_datetime_no_network (st : RemoteState)
    (title start_time end_time description : String) (attendees : List String)
    (h : fromisoformat start_time = none ∨ fromisoformat end_time = none) :
    create_event st title start_time end_time description attendees =
      ⟨none, st, [], [.valueErrorMsg]⟩ := by
  rcases h with h | h
  · simp [create_event, h]
  · cases hs : fromisoformat start_time with
    | none => simp [create_event, hs]
    | some dt => simp [create_event, hs, h]

theorem create_invalid_datetime_no_network_witness :
    (fromisoformat "not-a-date" = none ∨ fromisoformat "2024-01-01T09:15:00" = none) ∧
    create_event st0 "Standup" "not-a-date" "2024-01-01T09:15:00" "" [] =
      ⟨none, st0, [], [.valueErrorMsg]⟩ :=
  ⟨Or.inl (by decide),
    create_invalid_datetime_no_network st0 "Standup" "not-a-date" "2024-01-01T09:15:00" "" []
      (Or.inl (by decide))⟩

/-- C3: a stored credential that is valid (unexpired access token) is
returned unchanged by `authenticate`, with no refresh round-trip and no
interactive consent step. -/
theorem authenticate_valid_credential_no_network (env : AuthEnv) (c : Creds)
    (hload : env.tokenFile = some (.parsed c)) (hvalid : c.valid = true) :
    authenticate env = (.ok c, [.buildService], [.authSuccess]) ∧
    AuthEvent.refreshCall ∉ (authenticate env).2.1 ∧
    AuthEvent.consentFlow ∉ (authenticate env).2.1 := by
  have heq : authenticate env = (.ok c, [.buildService], [.authSuccess]) := by
    simp [authenticate, hload, authWithCreds, hvalid]
  refine ⟨heq, ?_, ?_⟩
  · rw [heq]; simp
  · rw [heq]; simp

theorem authenticate_valid_credential_no_network_witness :
    authEnvValid.tokenFile = some (.parsed credsValid) ∧ credsValid.valid = true ∧
    (authenticate authEnvValid = (.ok credsValid, [.buildService], [.authSuccess]) ∧
      AuthEvent.refreshCall ∉ (authenticate authEnvValid).2.1 ∧
      AuthEvent.consentFlow ∉ (authenticate authEnvValid).2.1) :=
  ⟨rfl, rfl, authenticate_valid_credential_no_network authEnvValid credsValid rfl rfl⟩

/-- C4: a stored credential with an expired access token and a (truthy)
refresh token leads to exactly one refresh exchange, no interactive consent,
and the refreshed credential being written to the token store. -/
theorem authenticate_expired_refresh_once (env : AuthEnv) (c : Creds)
    (hload : env.tokenFile = some (.parsed c)) (hexp : c.expired = true)
    (href : pyTruthy c.refresh_token = true) :
    authenticate env =
      (.ok (c.refreshed env.refreshedToken),
        [.refreshCall, .saveToken (c.refreshed env.refreshedToken), .buildService],
        [.authSuccess]) ∧
    (authenticate env).2.1.count .refreshCall = 1 ∧
    AuthEvent.consentFlow ∉ (authenticate env).2.1 ∧
    AuthEvent.saveToken (c.refreshed env.refreshedToken) ∈ (authenticate env).2.1 := by
  have hvalid : c.valid = false := by simp [Creds.valid, hexp]
  have heq : authenticate env =
      (.ok (c.refreshed env.refreshedToken),
        [.refreshCall, .saveToken (c.refreshed env.refreshedToken), .buildService],
        [.authSuccess]) := by
    simp [authenticate, hload, authWithCreds, hvalid, hexp, href]
  refine ⟨heq, ?_, ?_, ?_⟩
  · rw [heq]; simp [List.count_cons]
  · rw [heq]; simp
  · rw [heq]; simp

theorem authenticate_expired_refresh_once_witness :
    authEnvExpired.tokenFile = some (.parsed credsExpired) ∧ credsExpired.expired = true ∧
    pyTruthy credsExpired.refresh_token = true ∧
    (authenticate authEnvExpired =
      (.ok (credsExpired.refreshed authEnvExpired.refreshedToken),
        [.refreshCall, .saveToken (credsExpired.refreshed authEnvExpired.refreshedToken),
          .buildService], [.authSuccess]) ∧
      (authenticate authEnvExpired).2.1.count .refreshCall = 1 ∧
      AuthEvent.consentFlow ∉ (authenticate authEnvExpired).2.1 ∧
      AuthEvent.saveToken (credsExpired.refreshed authEnvExpired.refreshedToken) ∈
        (authenticate authEnvExpired).2.1) :=
  ⟨rfl, rfl, by decide,
    authenticate_expired_refresh_once authEnvExpired credsExpired rfl rfl (by decide)⟩

/-- C5, counterexample: on the loaded-valid path `authenticate` succeeds but
never writes the token store — `pickle.dump` sits inside the
`if not creds or not creds.valid` block — so "on every successful path the
credential is persisted before the session is returned" fails at this input. -/
theorem authenticate_valid_path_no_persist :
    (authenticate authEnvValid).1 = .ok credsValid ∧
    ∀ c, AuthEvent.saveToken c ∉ (authenticate authEnvValid).2.1 := by
  have heq : authenticate authEnvValid = (.ok credsValid, [.buildService], [.authSuccess]) := rfl
  refine ⟨by rw [heq], ?_⟩
  intro c
  rw [heq]
  simp

/-- C5, amended: the refreshed and freshly-obtained (consent-flow) successful
paths persist the resulting credential to the store before the service is
built and returned; the loaded-valid path returns the credential without
re-persisting it. -/
theorem authenticate_persistence_by_path (env : AuthEnv) :
    (∀ c, env.tokenFile = some (.parsed c) → c.valid = true →
      authenticate env = (.ok c, [.buildService], [.authSuccess])) ∧
    (∀ c, env.tokenFile = some (.parsed c) → c.expired = true →
      pyTruthy c.refresh_token = true →
      authenticate env =
        (.ok (c.refreshed env.refreshedToken),
          [.refreshCall, .saveToken (c.refreshed env.refreshedToken), .buildService],
          [.authSuccess])) ∧
    (env.tokenFile = none → env.credentialsFile = true →
      authenticate env =
        (.ok env.flowCreds, [.consentFlow, .saveToken env.flowCreds, .buildService],
          [.authSuccess])) := by
  refine ⟨?_, ?_, ?_⟩
  · intro c hload hvalid
    simp [authenticate, hload, authWithCreds, hvalid]
  · intro c hload hexp href
    have hvalid : c.valid = false := by simp [Creds.valid, hexp]
    simp [authenticate, hload, authWithCreds, hvalid, hexp, href]
  · intro hload hcfg
    simp [authenticate, hload, authWithCreds, consentPath, hcfg]

theorem authenticate_persistence_by_path_witness :
    (authenticate authEnvExpired =
      (.ok (credsExpired.refreshed authEnvExpired.refreshedToken),
        [.refreshCall, .saveToken (credsExpired.refreshed authEnvExpired.refreshedToken),
          .buildService], [.authSuccess])) ∧
    (authenticate authEnvAbsent =
      (.ok authEnvAbsent.flowCreds,
        [.consentFlow, .saveToken authEnvAbsent.flowCreds, .buildService], [.authSuccess])) :=
  ⟨(authenticate_persistence_by_path authEnvExpired).2.1 credsExpired rfl rfl (by decide),
    (authenticate_persistence_by_path authEnvAbsent).2.2 rfl rfl⟩

/-- C6, counterexample: a token file that fails to deserialize is not treated
as "credential absent" — `pickle.load` has no handler, so `authenticate`
raises and no re-authentication (consent flow) is triggered: the load failure
is fatal. -/
theorem corrupt_token_file_fatal :
    authenticate authEnvCorrupt = (.raised .unpicklingError, [], []) ∧
    AuthEvent.consentFlow ∉ (authenticate authEnvCorrupt).2.1 := by
  refine ⟨rfl, ?_⟩
  have heq : authenticate authEnvCorrupt = (.raised .unpicklingError, [], []) := rfl
  rw [heq]
  simp

/-- C6, amended: only a missing token file is treated as "credential absent"
(triggering re-authentication); a present file whose contents fail to parse
raises an uncaught error out of the load. -/
theorem token_parse_failure_behavior (env : AuthEnv) :
    (env.tokenFile = some .corrupt →
      authenticate env = (.raised .unpicklingError, [], [])) ∧
    (env.tokenFile = none → env.credentialsFile = true →
      authenticate env =
        (.ok env.flowCreds, [.consentFlow, .saveToken env.flowCreds, .buildService],
          [.authSuccess])) := by
  refine ⟨?_, ?_⟩
  · intro hload
    simp [authenticate, hload]
  · intro hload hcfg
    simp [authenticate, hload, authWithCreds, consentPath, hcfg]

theorem token_parse_failure_behavior_witness :
    (authenticate authEnvCorrupt = (.raised .unpicklingError, [], [])) ∧
    (authenticate authEnvAbsent =
      (.ok authEnvAbsent.flowCreds,
        [.consentFlow, .saveToken authEnvAbsent.flowCreds, .buildService], [.authSuccess])) :=
  ⟨(token_parse_failure_behavior authEnvCorrupt).1 rfl,
    (token_parse_failure_behavior authEnvAbsent).2 rfl rfl⟩

theorem mergeEvent_none (event : Event) : mergeEvent event none none none none = .ok event := by
  simp [mergeEvent, applyStart, applyEnd, applyDescription, applyTitle, pyTruthy]

theorem mergeEvent_empty_strings (event : Event) :
    mergeEvent event (some "") (some "") (some "") none = .ok event := by
  simp [mergeEvent, applyStart, applyEnd, applyDescription, applyTitle, pyTruthy]

theorem mergeEvent_empty_description (event : Event) :
    mergeEvent event none none none (some "") = .ok { event with description := some "" } := by
  simp [mergeEvent, applyStart, applyEnd, applyDescription, applyTitle, pyTruthy]

theorem mergeEvent_title_only (event : Event) (t : String) (ht : t ≠ "") :
    mergeEvent event (some t) none none none = .ok { event with summary := some t } := by
  simp [mergeEvent, applyStart, applyEnd, applyDescription, applyTitle, pyTruthy, ht]

theorem update_event_eq_of_merge (st : RemoteState) (event_id : String)
    (title start_time end_time description : Option String) (old merged : Event)
    (hok : st.remoteFails = false) (hfound : st.lookup event_id = some old)
    (hmerge : mergeEvent old title start_time end_time description = .ok merged) :
    update_event st event_id title start_time end_time description =
      ⟨true, st.replace event_id merged,
        [.getCall event_id, .updateCall event_id merged], [.updatedOk event_id]⟩ := by
  simp [update_event, hok, hfound, hmerge]

/-- C1: an update on an existing event fetches the current record, overwrites
only the fields explicitly supplied, leaves every absent field (and every
field the operation does not know about, `extra` included) unchanged, and
writes back the full merged record with a single update call — merge patch,
not replace. -/
theorem update_event_merge_patch (st : RemoteState) (event_id : String)
    (title start_time end_time description : Option String) (old : Event)
    (hok : st.remoteFails = false)
    (hfound : st.lookup event_id = some old)
    (hs : pyTruthy start_time = true → (fromisoformat (start_time.getD "")).isSome = true)
    (he : pyTruthy end_time = true → (fromisoformat (end_time.getD "")).isSome = true) :
    ∃ merged,
      update_event st event_id title start_time end_time description =
        ⟨true, st.replace event_id merged,
          [.getCall event_id, .updateCall event_id merged], [.updatedOk event_id]⟩ ∧
      (update_event st event_id title start_time end_time description).state.lookup event_id
        = some merged ∧
      (∀ eid', eid' ≠ event_id →
        (update_event st event_id title start_time end_time description).state.lookup eid'
          = st.lookup eid') ∧
      merged.id = old.id ∧ merged.extra = old.extra ∧ merged.attendees = old.attendees ∧
      merged.start.date = old.start.date ∧ merged.start.timeZone = old.start.timeZone ∧
      merged.end_.date = old.end_.date ∧ merged.end_.timeZone = old.end_.timeZone ∧
      (pyTruthy title = false → merged.summary = old.summary) ∧
      (pyTruthy title = true → merged.summary = title) ∧
      (description = none → merged.description = old.description) ∧
      (∀ d, description = some d → merged.description = some d) ∧
      (pyTruthy start_time = false → merged.start = old.start) ∧
      (pyTruthy end_time = false → merged.end_ = old.end_) ∧
      (pyTruthy start_time = true →
        ∃ dt, fromisoformat (start_time.getD "") = some dt ∧
          merged.start.dateTime = some dt.isoformat) ∧
      (pyTruthy end_time = true →
        ∃ dt, fromisoformat (end_time.getD "") = some dt ∧
          merged.end_.dateTime = some dt.isoformat) := by
  have hid_old : old.id = event_id := lookup_id_eq hfound
  obtain ⟨t_id, t_desc, t_start, t_end, t_att, t_ext, t_sum⟩ := applyTitle_props old title
  obtain ⟨d_id, d_sum, d_start, d_end, d_att, d_ext, d_desc⟩ :=
    applyDescription_props (applyTitle old title) description
  obtain ⟨e3, h3eq, s_id, s_sum, s_desc, s_end, s_att, s_ext, s_sdate, s_stz, s_none, s_some⟩ :=
    applyStart_ok (applyDescription (applyTitle old title) description) start_time hs
  obtain ⟨e4, h4eq, e_id, e_sum, e_desc, e_start, e_att, e_ext, e_edate, e_etz, e_none, e_some⟩ :=
    applyEnd_ok e3 end_time he
  have hmerge : mergeEvent old title start_time end_time description = .ok e4 := by
    unfold mergeEvent
    rw [h3eq]
    exact h4eq
  have hupd := update_event_eq_of_merge st event_id title start_time end_time description
    old e4 hok hfound hmerge
  have hid4 : e4.id = event_id := by rw [e_id, s_id, d_id, t_id, hid_old]
  have hfound' : (st.lookup event_id).isSome = true := by rw [hfound]; rfl
  refine ⟨e4, hupd, ?_, ?_, ?_, ?_, ?_, ?_, ?_, ?_, ?_, ?_, ?_, ?_, ?_, ?_, ?_, ?_, ?_⟩
  · rw [hupd]
    exact lookup_replace_self st event_id e4 hid4 hfound'
  · intro eid' hne
    rw [hupd]
    exact lookup_replace_ne st event_id eid' e4 hid4 hne
  · rw [e_id, s_id, d_id, t_id]
  · rw [e_ext, s_ext, d_ext, t_ext]
  · rw [e_att, s_att, d_att, t_att]
  · rw [e_start, s_sdate, d_start, t_start]
  · rw [e_start, s_stz, d_start, t_start]
  · rw [e_edate, s_end, d_end, t_end]
  · rw [e_etz, s_end, d_end, t_end]
  · intro ht
    rw [e_sum, s_sum, d_sum, t_sum]
    simp [ht]
  · intro ht
    rw [e_sum, s_sum, d_sum, t_sum]
    simp [ht]
  · intro hd
    subst hd
    rw [e_desc, s_desc, d_desc, t_desc]
  · intro d hd
    subst hd
    rw [e_desc, s_desc, d_desc]
  · intro h0
    rw [e_start, s_none h0, d_start, t_start]
  · intro h0
    rw [e_none h0, s_end, d_end, t_end]
  · intro ht
    obtain ⟨dt, hdt, hsd⟩ := s_some ht
    refine ⟨dt, hdt, ?_⟩
    rw [e_start]
    exact hsd
  · intro ht
    exact e_some ht

theorem update_event_merge_patch_witness :
    st0.remoteFails = false ∧ st0.lookup "abc" = some ev0 ∧
    (pyTruthy (some "2024-02-02T08:00:00") = true →
      (fromisoformat ((some "2024-02-02T08:00:00").getD "")).isSome = true) ∧
    (pyTruthy (none : Option String) = true →
      (fromisoformat ((none : Option String).getD "")).isSome = true) ∧
    ∃ merged,
      update_event st0 "abc" (some "New") (some "2024-02-02T08:00:00") none none =
        ⟨true, st0.replace "abc" merged, [.getCall "abc", .updateCall "abc" merged],
          [.updatedOk "abc"]⟩ ∧
      (update_event st0 "abc" (some "New") (some "2024-02-02T08:00:00") none none).state.lookup
        "abc" = some merged ∧
      (∀ eid', eid' ≠ "abc" →
        (update_event st0 "abc" (some "New") (some "2024-02-02T08:00:00") none
          none).state.lookup eid' = st0.lookup eid') ∧
      merged.id = ev0.id ∧ merged.extra = ev0.extra ∧ merged.attendees = ev0.attendees ∧
      merged.start.date = ev0.start.date ∧ merged.start.timeZone = ev0.start.timeZone ∧
      merged.end_.date = ev0.end_.date ∧ merged.end_.timeZone = ev0.end_.timeZone ∧
      (pyTruthy (some "New") = false → merged.summary = ev0.summary) ∧
      (pyTruthy (some "New") = true → merged.summary = some "New") ∧
      ((none : Option String) = none → merged.description = ev0.description) ∧
      (∀ d, (none : Option String) = some d → merged.description = some d) ∧
      (pyTruthy (some "2024-02-02T08:00:00") = false → merged.start = ev0.start) ∧
      (pyTruthy (none : Option String) = false → merged.end_ = ev0.end_) ∧
      (pyTruthy (some "2024-02-02T08:00:00") = true →
        ∃ dt, fromisoformat ((some "2024-02-02T08:00:00").getD "") = some dt ∧
          merged.start.dateTime = some dt.isoformat) ∧
      (pyTruthy (none : Option String) = true →
        ∃ dt, fromisoformat ((none : Option String).getD "") = some dt ∧
          merged.end_.dateTime = some dt.isoformat) :=
  ⟨rfl, rfl, fun _ => by decide, fun h => Bool.noConfusion h,
    update_event_merge_patch st0 "abc" (some "New") (some "2024-02-02T08:00:00") none none ev0
      rfl rfl (fun _ => by decide) (fun h => Bool.noConfusion h)⟩

/-- C8: an update supplying none of the optional fields is a no-op
round-trip: it still performs the fetch and the write-back, the written body
is exactly the fetched record, and the stored state is observationally
unchanged at every id. -/
theorem update_no_fields_noop (st : RemoteState) (event_id : String) (old : Event)
    (hok : st.remoteFails = false) (hfound : st.lookup event_id = some old) :
    update_event st event_id none none none none =
      ⟨true, st.replace event_id old, [.getCall event_id, .updateCall event_id old],
        [.updatedOk event_id]⟩ ∧
    (update_event st event_id none none none none).state.lookup event_id = some old ∧
    (∀ eid', (update_event st event_id none none none none).state.lookup eid' = st.lookup eid')
    := by
  have hid_old : old.id = event_id := lookup_id_eq hfound
  have hfound' : (st.lookup event_id).isSome = true := by rw [hfound]; rfl
  have hupd := update_event_eq_of_merge st event_id none none none none old old hok hfound
    (mergeEvent_none old)
  refine ⟨hupd, ?_, ?_⟩
  · rw [hupd]
    exact lookup_replace_self st event_id old hid_old hfound'
  · intro eid'
    rw [hupd]
    by_cases hne : eid' = event_id
    · subst hne
      rw [lookup_replace_self st eid' old hid_old hfound', hfound]
    · exact lookup_replace_ne st event_id eid' old hid_old hne

theorem update_no_fields_noop_witness :
    st0.remoteFails = false ∧ st0.lookup "abc" = some ev0 ∧
    (update_event st0 "abc" none none none none =
      ⟨true, st0.replace "abc" ev0, [.getCall "abc", .updateCall "abc" ev0],
        [.updatedOk "abc"]⟩ ∧
    (update_event st0 "abc" none none none none).state.lookup "abc" = some ev0 ∧
    (∀ eid', (update_event st0 "abc" none none none none).state.lookup eid' = st0.lookup eid'))
    :=
  ⟨rfl, rfl, update_no_fields_noop st0 "abc" ev0 rfl rfl⟩

/-- C10: presence of title, start and end is decided by truthiness while
presence of description is decided by is-not-None: empty-string title, start
and end are treated as absent (stored fields unchanged), while an
empty-string description is treated as supplied and overwrites. -/
theorem update_presence_semantics (st : RemoteState) (event_id : String) (old : Event)
    (hok : st.remoteFails = false) (hfound : st.lookup event_id = some old) :
    ((update_event st event_id (some "") (some "") (some "") none).ret = true ∧
      (update_event st event_id (some "") (some "") (some "") none).state.lookup event_id
        = some old) ∧
    ((update_event st event_id none none none (some "")).ret = true ∧
      (update_event st event_id none none none (some "")).state.lookup event_id
        = some { old with description := some "" }) ∧
    (∀ t : String, t ≠ "" →
      (update_event st event_id (some t) none none none).state.lookup event_id
        = some { old with summary := some t }) := by
  have hid_old : old.id = event_id := lookup_id_eq hfound
  have hfound' : (st.lookup event_id).isSome = true := by rw [hfound]; rfl
  refine ⟨?_, ?_, ?_⟩
  · have hupd := update_event_eq_of_merge st event_id (some "") (some "") (some "") none old old
      hok hfound (mergeEvent_empty_strings old)
    refine ⟨by rw [hupd], ?_⟩
    rw [hupd]
    exact lookup_replace_self st event_id old hid_old hfound'
  · have hupd := update_event_eq_of_merge st event_id none none none (some "") old
      { old with description := some "" } hok hfound (mergeEvent_empty_description old)
    refine ⟨by rw [hupd], ?_⟩
    rw [hupd]
    exact lookup_replace_self st event_id { old with description := some "" } hid_old hfound'
  · intro t ht
    have hupd := update_event_eq_of_merge st event_id (some t) none none none old
      { old with summary := some t } hok hfound (mergeEvent_title_only old t ht)
    rw [hupd]
    exact lookup_replace_self st event_id { old with summary := some t } hid_old hfound'

theorem update_presence_semantics_witness :
    st0.remoteFails = false ∧ st0.lookup "abc" = some ev0 ∧
    (((update_event st0 "abc" (some "") (some "") (some "") none).ret = true ∧
      (update_event st0 "abc" (some "") (some "") (some "") none).state.lookup "abc"
        = some ev0) ∧
    ((update_event st0 "abc" none none none (some "")).ret = true ∧
      (update_event st0 "abc" none none none (some "")).state.lookup "abc"
        = some { ev0 with description := some "" }) ∧
    (∀ t : String, t ≠ "" →
      (update_event st0 "abc" (some t) none none none).state.lookup "abc"
        = some { ev0 with summary := some t })) :=
  ⟨rfl, rfl, update_presence_semantics st0 "abc" ev0 rfl rfl⟩

theorem parse_args_cases (args : List String) :
    (∃ cmd, parse_args args = .ok cmd) ∨ parse_args args = .exited 0 [.helpText] ∨
      parse_args args = .exited 2 [.usageError] := by
  cases args with
  | nil => exact Or.inl ⟨none, rfl⟩
  | cons tok rest =>
    by_cases h1 : tok = "-h" ∨ tok = "--help"
    · exact Or.inr (Or.inl (by simp [parse_args, h1]))
    · rw [not_or] at h1
      obtain ⟨h1a, h1b⟩ := h1
      by_cases h2 : tok = "list"
      · cases hp : parseListCmd rest 10 7 with
        | ok v =>
          obtain ⟨mx, dy⟩ := v
          exact Or.inl ⟨some (.list mx dy), by simp [parse_args, h1a, h1b, h2, hp]⟩
        | error u =>
          exact Or.inr (Or.inr (by simp [parse_args, h1a, h1b, h2, hp]))
      · by_cases h3 : tok = "create"
        · cases hp : parseCreateCmd rest [] "" none with
          | ok v =>
            obtain ⟨pos, d, a⟩ := v
            rcases pos with _ | ⟨t, _ | ⟨s, _ | ⟨e, _ | ⟨x, xs⟩⟩⟩⟩
            · exact Or.inr (Or.inr (by simp [parse_args, h1a, h1b, h2, h3, hp]))
            · exact Or.inr (Or.inr (by simp [parse_args, h1a, h1b, h2, h3, hp]))
            · exact Or.inr (Or.inr (by simp [parse_args, h1a, h1b, h2, h3, hp]))
            · exact Or.inl ⟨some (.create t s e d a),
                by simp [parse_args, h1a, h1b, h2, h3, hp]⟩
            · exact Or.inr (Or.inr (by simp [parse_args, h1a, h1b, h2, h3, hp]))
          | error u =>
            exact Or.inr (Or.inr (by simp [parse_args, h1a, h1b, h2, h3, hp]))
        · by_cases h4 : tok = "update"
          · cases hp : parseUpdateCmd rest [] none none none none with
            | ok v =>
              obtain ⟨pos, t, s, e, d⟩ := v
              rcases pos with _ | ⟨eid, _ | ⟨x, xs⟩⟩
              · exact Or.inr (Or.inr (by simp [parse_args, h1a, h1b, h2, h3, h4, hp]))
              · exact Or.inl ⟨some (.update eid t s e d),
                  by simp [parse_args, h1a, h1b, h2, h3, h4, hp]⟩
              · exact Or.inr (Or.inr (by simp [parse_args, h1a, h1b, h2, h3, h4, hp]))
            | error u =>
              exact Or.inr (Or.inr (by simp [parse_args, h1a, h1b, h2, h3, h4, hp]))
          · by_cases h5 : tok = "delete"
            · cases hp : parseDeleteCmd rest [] with
              | ok pos =>
                rcases pos with _ | ⟨eid, _ | ⟨x, xs⟩⟩
                · exact Or.inr (Or.inr
                    (by simp [parse_args, h1a, h1b, h2, h3, h4, h5, hp]))
                · exact Or.inl ⟨some (.delete eid),
                    by simp [parse_args, h1a, h1b, h2, h3, h4, h5, hp]⟩
                · exact Or.inr (Or.inr
                    (by simp [parse_args, h1a, h1b, h2, h3, h4, h5, hp]))
              | error u =>
                exact Or.inr (Or.inr (by simp [parse_args, h1a, h1b, h2, h3, h4, h5, hp]))
            · exact Or.inr (Or.inr (by simp [parse_args, h1a, h1b, h2, h3, h4, h5]))

theorem consentPath_no_raise (env : AuthEnv) (ex : PyExn) :
    (consentPath env).1 ≠ .raised ex := by
  by_cases hc : env.credentialsFile = true
  · simp [consentPath, hc]
  · simp [consentPath, hc]

theorem authWithCreds_no_raise (env : AuthEnv) (c? : Option Creds) (ex : PyExn) :
    (authWithCreds env c?).1 ≠ .raised ex := by
  cases c? with
  | none => exact consentPath_no_raise env ex
  | some c =>
    by_cases hv : c.valid = true
    · simp [authWithCreds, hv]
    · by_cases hr : (c.expired && pyTruthy c.refresh_token) = true
      · simp [authWithCreds, hv, hr]
      · simp only [authWithCreds, hv, hr, Bool.false_eq_true, if_false]
        exact consentPath_no_raise env ex

theorem authenticate_no_raise (env : AuthEnv) (h : env.tokenFile ≠ some .corrupt)
    (ex : PyExn) : (authenticate env).1 ≠ .raised ex := by
  cases htf : env.tokenFile with
  | none =>
    simp only [authenticate, htf]
    exact authWithCreds_no_raise env none ex
  | some tf =>
    cases tf with
    | corrupt => exact absurd htf h
    | parsed c =>
      simp only [authenticate, htf]
      exact authWithCreds_no_raise env (some c) ex

theorem authWithCreds_msgs_of_ok (env : AuthEnv) (c? : Option Creds) (c : Creds)
    (evs : List AuthEvent) (msgs : List Msg)
    (h : authWithCreds env c? = (.ok c, evs, msgs)) : msgs = [.authSuccess] := by
  cases c? with
  | none =>
    simp only [authWithCreds, consentPath] at h
    by_cases hc : env.credentialsFile = true
    · rw [if_pos hc] at h
      simp only [Prod.mk.injEq] at h
      exact h.2.2.symm
    · rw [if_neg hc] at h
      simp only [Prod.mk.injEq] at h
      exact absurd h.1 (by simp)
  | some cc =>
    simp only [authWithCreds] at h
    by_cases hv : cc.valid = true
    · rw [if_pos hv] at h
      simp only [Prod.mk.injEq] at h
      exact h.2.2.symm
    · rw [if_neg hv] at h
      by_cases hr : (cc.expired && pyTruthy cc.refresh_token) = true
      · rw [if_pos hr] at h
        simp only [Prod.mk.injEq] at h
        exact h.2.2.symm
      · rw [if_neg hr] at h
        simp only [consentPath] at h
        by_cases hc : env.credentialsFile = true
        · rw [if_pos hc] at h
          simp only [Prod.mk.injEq] at h
          exact h.2.2.symm
        · rw [if_neg hc] at h
          simp only [Prod.mk.injEq] at h
          exact absurd h.1 (by simp)

theorem authenticate_msgs_of_ok (env : AuthEnv) (c : Creds) (evs : List AuthEvent)
    (msgs : List Msg) (h : authenticate env = (.ok c, evs, msgs)) : msgs = [.authSuccess] := by
  cases htf : env.tokenFile with
  | none =>
    simp only [authenticate, htf] at h
    exact authWithCreds_msgs_of_ok env none c evs msgs h
  | some tf =>
    cases tf with
    | corrupt =>
      simp only [authenticate, htf, Prod.mk.injEq] at h
      exact absurd h.1 (by simp)
    | parsed cc =>
      simp only [authenticate, htf] at h
      exact authWithCreds_msgs_of_ok env (some cc) c evs msgs h

theorem formatEventLine_ok_of_displayable (e : Event) (h : e.displayable = true) :
    ∃ line, formatEventLine e = .ok line := by
  cases hst : e.start.dateTime.or e.start.date with
  | none =>
    simp only [Event.displayable, hst] at h
    exact Bool.noConfusion h
  | some s =>
    simp only [Event.displayable, hst] at h
    by_cases hT : s.toList.contains 'T' = true
    · rw [if_pos hT] at h
      obtain ⟨dt, hdt⟩ := Option.isSome_iff_exists.mp h
      have hmem : 'T' ∈ s.toList := List.elem_iff.mp hT
      have hmem' : 'T' ∈ s.data := hmem
      exact ⟨"• " ++ strftimeYMDHM dt ++ " - " ++ e.summary.getD "No title" ++ " (ID: " ++
        String.mk (e.id.toList.take 8) ++ "...)", by simp [formatEventLine, hst, hmem', hdt]⟩
    · have hmem : 'T' ∉ s.toList := fun hm => hT (List.elem_eq_true_of_mem hm)
      have hmem' : 'T' ∉ s.data := hmem
      exact ⟨"• " ++ s ++ " - " ++ e.summary.getD "No title" ++ " (ID: " ++
        String.mk (e.id.toList.take 8) ++ "...)", by simp [formatEventLine, hst, hmem']⟩

theorem formatEvents_no_exn (l : List Event) (acc : List Msg)
    (h : ∀ e ∈ l, e.displayable = true) : (formatEvents l acc).2 = none := by
  induction l generalizing acc with
  | nil => simp [formatEvents]
  | cons e rest ih =>
    obtain ⟨line, hline⟩ := formatEventLine_ok_of_displayable e (h e (by simp))
    simp only [formatEvents, hline]
    exact ih _ (fun x hx => h x (by simp [hx]))

theorem list_events_no_exn (st : RemoteState) (mx dy : Int)
    (h : ∀ e ∈ st.events, e.displayable = true) : (list_events st mx dy).exn = none := by
  unfold list_events
  by_cases hf : st.remoteFails = true
  · simp [hf]
  · by_cases he : st.events = []
    · simp [hf, he]
    · have hfe := formatEvents_no_exn st.events [.listHeader dy] h
      rcases hfm : formatEvents st.events [Msg.listHeader dy] with ⟨msgs, exn⟩
      rw [hfm] at hfe
      simp only at hfe
      subst hfe
      simp [hf, he, hfm]

/-- C7, counterexample: invoking `list` with a token file that fails to
unpickle crashes the process with an uncaught exception before anything has
been printed — contradicting "no exception ever escapes" and "always exits
after printing a success or failure message". -/
theorem corrupt_token_crashes_process :
    (mainRun ["list"] envCorrupt).result = .crashed .unpicklingError ∧
    (mainRun ["list"] envCorrupt).msgs = [] :=
  ⟨rfl, rfl⟩

/-- C7, amended: failures inside the calendar operations (`HttpError`,
invalid date-times) and a missing `credentials.json` are caught, printed and
converted into did-not-complete results, and the process then terminates
normally with at least one line printed; but this only holds when the token
file is not corrupt (and the fetched events are formattable) — an
unpicklable token file escapes as an uncaught exception. -/
theorem process_failure_policy (args : List String) (env : Env)
    (htok : env.auth.tokenFile ≠ some .corrupt)
    (hdisp : ∀ e ∈ env.remote.events, e.displayable = true) :
    (∀ ex, (mainRun args env).result ≠ .crashed ex) ∧ (mainRun args env).msgs ≠ [] := by
  rcases parse_args_cases args with ⟨cmd, hp⟩ | hp | hp
  · cases cmd with
    | none =>
      refine ⟨fun ex => ?_, ?_⟩
      · simp [mainRun, hp]
      · simp [mainRun, hp]
    | some c =>
      rcases hauth : authenticate env.auth with ⟨out, evs, amsgs⟩
      cases out with
      | raised ex =>
        have hnr := authenticate_no_raise env.auth htok ex
        rw [hauth] at hnr
        exact absurd rfl hnr
      | noService =>
        refine ⟨fun ex => ?_, ?_⟩
        · simp [mainRun, hp, hauth]
        · simp [mainRun, hp, hauth]
      | ok c' =>
        have hmsgs : amsgs = [.authSuccess] :=
          authenticate_msgs_of_ok env.auth c' evs amsgs hauth
        subst hmsgs
        cases c with
        | list mx dy =>
          have hexn : (list_events env.remote mx dy).exn = none :=
            list_events_no_exn env.remote mx dy hdisp
          refine ⟨fun ex => ?_, ?_⟩
          · simp [mainRun, hp, hauth, hexn]
          · simp [mainRun, hp, hauth, hexn]
        | create t s e d a =>
          refine ⟨fun ex => ?_, ?_⟩
          · simp [mainRun, hp, hauth]
          · simp [mainRun, hp, hauth]
        | update eid t s e d =>
          refine ⟨fun ex => ?_, ?_⟩
          · simp [mainRun, hp, hauth]
          · simp [mainRun, hp, hauth]
        | delete eid =>
          refine ⟨fun ex => ?_, ?_⟩
          · simp [mainRun, hp, hauth]
          · simp [mainRun, hp, hauth]
  · refine ⟨fun ex => ?_, ?_⟩
    · simp [mainRun, hp]
    · simp [mainRun, hp]
  · refine ⟨fun ex => ?_, ?_⟩
    · simp [mainRun, hp]
    · simp [mainRun, hp]

theorem process_failure_policy_witness :
    envValid.auth.tokenFile ≠ some .corrupt ∧
    (∀ e ∈ envValid.remote.events, e.displayable = true) ∧
    ((∀ ex, (mainRun ["list"] envValid).result ≠ .crashed ex) ∧
      (mainRun ["list"] envValid).msgs ≠ []) :=
  ⟨by decide, by decide,
    process_failure_policy ["list"] envValid (by decide) (by decide)⟩

/-- C9, counterexample: an unknown first token does not make the program
print the help summary and exit without error — `argparse` prints a usage
error and terminates with exit status 2 (an error exit), as seen at the
concrete argument list `["foo"]`. -/
theorem unknown_command_error_exit :
    (mainRun ["foo"] envValid).result = .exited 2 ∧
    (mainRun ["foo"] envValid).msgs = [.usageError] ∧
    Msg.helpText ∉ (mainRun ["foo"] envValid).msgs ∧
    (mainRun ["foo"] envValid).calls = [] := by
  refine ⟨rfl, rfl, ?_, rfl⟩
  have h : (mainRun ["foo"] envValid).msgs = [.usageError] := rfl
  rw [h]
  simp

/-- C9, amended: an unknown first positional token makes the argument parser
print a usage/error message and exit with status 2 — an error exit, without
invoking any calendar operation or authentication; an empty argument list
prints the help text and returns without invoking any calendar operation. -/
theorem dispatcher_unknown_and_empty (env : Env) (tok : String) (rest : List String)
    (hunk : tok ≠ "list" ∧ tok ≠ "create" ∧ tok ≠ "update" ∧ tok ≠ "delete" ∧
      tok ≠ "-h" ∧ tok ≠ "--help") :
    mainRun (tok :: rest) env = ⟨.exited 2, [], [], [.usageError], env.remote⟩ ∧
    mainRun [] env = ⟨.finished, [], [], [.helpText], env.remote⟩ := by
  obtain ⟨h1, h2, h3, h4, h5, h6⟩ := hunk
  constructor
  · have hp : parse_args (tok :: rest) = .exited 2 [.usageError] := by
      simp [parse_args, h1, h2, h3, h4, h5, h6]
    simp [mainRun, hp]
  · have hp : parse_args ([] : List String) = .ok none := rfl
    simp [mainRun, hp]

theorem dispatcher_unknown_and_empty_witness :
    ("foo" ≠ "list" ∧ "foo" ≠ "create" ∧ "foo" ≠ "update" ∧ "foo" ≠ "delete" ∧
      "foo" ≠ "-h" ∧ "foo" ≠ "--help") ∧
    (mainRun ["foo"] envValid = ⟨.exited 2, [], [], [.usageError], envValid.remote⟩ ∧
      mainRun [] envValid = ⟨.finished, [], [], [.helpText], envValid.remote⟩) :=
  ⟨by decide, dispatcher_unknown_and_empty envValid "foo" [] (by decide)⟩

end CalendarManager
